import Mathlib

/-!
Verification of the LogAnalysis core (src/forensic_parser.py) against its
specification.

The embedding models:
* `extract_log_details` — the line parser built from six independent
  `re.search` calls (each modelled as a leftmost-match scanner over the
  character list of the line);
* `records` — the EventStore construction loop, including the Python
  truthiness test `if parsed["time"]:` on line 76 of the source;
* the empty-store check and `st.stop()` guard (lines 82–87);
* `event_counts` — the pandas `groupby(Grouper(freq="10S")).size()`
  aggregation (line 104): 10-second windows floor-aligned to the epoch,
  contiguous from the window of the minimum time to the window of the
  maximum time, empty windows included with count 0;
* the scipy `stats.zscore` anomaly column and the `|z| > 2` filter
  (lines 125–126).  scipy zscore uses the population (ddof = 0) standard
  deviation; when the variance is zero the float division yields NaN for
  every entry (no exception), and `abs(NaN) > 2` is False.  Real-valued
  z-scores are encoded by their squares so the development stays inside ℚ:
  `|z| > 2 ↔ z^2 > 4 ↔ (c - μ)^2 > 4·σ²`, and NaN is encoded as `none`.
-/

namespace LogAnalysis

/-- Word character of the regex class `\w` (ASCII fragment: letters, digits,
underscore), as matched by `EVNT:(XR-\w+)` and `usr:(\w+)`. -/
def isWordChar (c : Char) : Bool :=
  c.isAlpha || c.isDigit || c == '_'

/-- Character allowed inside the capture of `IP:([\d\.]+)`: a digit or a dot. -/
def isIpChar (c : Char) : Bool :=
  c.isDigit || c == '.'

/-- Numeric value of a digit string, as Python `int` reads a run of digits. -/
def natOfDigits (ds : List Char) : Nat :=
  ds.foldl (fun acc c => 10 * acc + (c.toNat - '0'.toNat)) 0

/-- Match of the regex `\[ts:(\d+)]` anchored at the head of the character
list: the literal `[ts:`, a nonempty greedy digit run, then `]`.  Returns the
integer value of the captured digits. -/
def tsAt : List Char → Option Nat
  | '[' :: 't' :: 's' :: ':' :: rest =>
    let ds := rest.takeWhile Char.isDigit
    if ds.isEmpty then none
    else
      match rest.drop ds.length with
      | ']' :: _ => some (natOfDigits ds)
      | _ => none
  | _ => none

/-- Leftmost-match search: `re.search` tries each start position from the
left and returns the first anchored match. -/
def searchWith (f : List Char → Option α) : List Char → Option α
  | [] => none
  | c :: cs =>
    match f (c :: cs) with
    | some v => some v
    | none => searchWith f cs

/-- Model of `re.search(r"\[ts:(\d+)]", entry)` followed by `int(...)` on the
captured group. -/
def searchTs (cs : List Char) : Option Nat :=
  searchWith tsAt cs

/-- Match of `EVNT:(XR-\w+)` anchored at the head: the capture is `XR-`
followed by a nonempty greedy word-character run. -/
def evntAt : List Char → Option (List Char)
  | 'E' :: 'V' :: 'N' :: 'T' :: ':' :: 'X' :: 'R' :: '-' :: rest =>
    let ws := rest.takeWhile isWordChar
    if ws.isEmpty then none else some ('X' :: 'R' :: '-' :: ws)
  | _ => none

/-- Model of `re.search(r"EVNT:(XR-\w+)", entry)`. -/
def searchEvnt (cs : List Char) : Option (List Char) :=
  searchWith evntAt cs

/-- Match of `usr:(\w+)` anchored at the head. -/
def usrAt : List Char → Option (List Char)
  | 'u' :: 's' :: 'r' :: ':' :: rest =>
    let ws := rest.takeWhile isWordChar
    if ws.isEmpty then none else some ws
  | _ => none

/-- Model of `re.search(r"usr:(\w+)", entry)`. -/
def searchUsr (cs : List Char) : Option (List Char) :=
  searchWith usrAt cs

/-- Match of `IP:([\d\.]+)` anchored at the head. -/
def ipAt : List Char → Option (List Char)
  | 'I' :: 'P' :: ':' :: rest =>
    let ws := rest.takeWhile isIpChar
    if ws.isEmpty then none else some ws
  | _ => none

/-- Model of `re.search(r"IP:([\d\.]+)", entry)`. -/
def searchIp (cs : List Char) : Option (List Char) :=
  searchWith ipAt cs

/-- Match of `=>/(.+)` anchored at the head: `.` does not cross a newline and
`.+` is a nonempty greedy run. -/
def pathAt : List Char → Option (List Char)
  | '=' :: '>' :: '/' :: rest =>
    let ws := rest.takeWhile (fun c => c != '\n')
    if ws.isEmpty then none else some ws
  | _ => none

/-- Model of `re.search(r"=>/(.+)", entry)`. -/
def searchPath (cs : List Char) : Option (List Char) :=
  searchWith pathAt cs

/-- Match of `pid(\d+)` anchored at the head. -/
def pidAt : List Char → Option Nat
  | 'p' :: 'i' :: 'd' :: rest =>
    let ds := rest.takeWhile Char.isDigit
    if ds.isEmpty then none else some (natOfDigits ds)
  | _ => none

/-- Model of `re.search(r"pid(\d+)", entry)` followed by `int(...)`. -/
def searchPid (cs : List Char) : Option Nat :=
  searchWith pidAt cs

/-- Event record produced by `extract_log_details`: one field per regex,
absent fields (`None` in the source) are `none`. -/
structure Event where
  time : Option Int
  event : Option String
  user : Option String
  ip : Option String
  path : Option String
  pid : Option Int
  format : String
deriving DecidableEq

/-- Model of `extract_log_details(entry, ftype)` (source lines 17–34): six
independent searches over the same line, `time` and `pid` converted by
`int`, `path` re-prefixed with `/`, `format` carried through. -/
def extract_log_details (entry : String) (ftype : String) : Event :=
  let cs := entry.data
  { time := (searchTs cs).map Int.ofNat
  , event := (searchEvnt cs).map (fun l => String.mk l)
  , user := (searchUsr cs).map (fun l => String.mk l)
  , ip := (searchIp cs).map (fun l => String.mk l)
  , path := (searchPath cs).map (fun l => String.mk ('/' :: l))
  , pid := (searchPid cs).map Int.ofNat
  , format := ftype }

/-- Python truthiness of `parsed["time"]` (source line 76): `None` and the
int `0` are falsy, every other int is truthy. -/
def truthyTime : Option Int → Bool
  | none => false
  | some t => t != 0

/-- One uploaded file after decoding: its declared format tag (the uppercased
filename extension computed on source line 72) and its decoded lines. -/
structure FileInput where
  ftype : String
  lines : List String
deriving DecidableEq

/-- The per-line body of the parsing loop (source lines 74–77): parse the
line, keep the record only when `parsed["time"]` is truthy. -/
def parseLine (ftype : String) (line : String) : Option Event :=
  let parsed := extract_log_details line ftype
  if truthyTime parsed.time then some parsed else none

/-- Model of the `records` list (source lines 70–77): every line of every
uploaded file, filtered by the truthiness test on the parsed time. -/
def records (files : List FileInput) : List Event :=
  files.flatMap fun f => f.lines.filterMap (parseLine f.ftype)

/-- Epoch-seconds start of the 10-second window a time falls in.  pandas
`Grouper(freq="10S")` bins datetimes into windows floor-aligned to midnight
(hence to the epoch, 86400 being a multiple of 10); `Int` division in Lean is
Euclidean, which is floor division for the positive divisor 10. -/
def win (t : Int) : Int := 10 * (t / 10)

/-- Minimum of a list of times (0 on the empty list, unused there). -/
def minT : List Int → Int
  | [] => 0
  | [t] => t
  | t :: u :: ts => min t (minT (u :: ts))

/-- Maximum of a list of times (0 on the empty list, unused there). -/
def maxT : List Int → Int
  | [] => 0
  | [t] => t
  | t :: u :: ts => max t (maxT (u :: ts))

/-- Window starts generated by the 10-second grouper: every multiple of 10
from the window of the minimum time through the window of the maximum time,
inclusive. -/
def windows (ts : List Int) : List Int :=
  match ts with
  | [] => []
  | _ :: _ =>
    (List.range ((maxT ts / 10 - minT ts / 10).toNat + 1)).map
      (fun (i : Nat) => win (minT ts) + 10 * (i : Int))

/-- Model of `event_counts` (source line 104):
`df_logs.groupby(pd.Grouper(key="time", freq="10S")).size()` over the list of
event times — one `(windowStart, count)` pair per 10-second window between
the extreme times, empty windows included with count 0. -/
def event_counts (ts : List Int) : List (Int × Nat) :=
  (windows ts).map (fun w => (w, (ts.filter (fun t => win t == w)).length))

/-- Times column of the EventStore: the `time` value of each record. -/
def storeTimes (es : List Event) : List Int :=
  es.filterMap (fun e => e.time)

/-- Model of the guard on source lines 82–87: with an empty record list the
run stops at the warning `No valid log entries parsed` before any
aggregation; otherwise aggregation proceeds.  (When `records` is nonempty the
DataFrame always has a `time` column, so the Python condition reduces to
nonemptiness.) -/
def runPipeline (files : List FileInput) : Except String (List (Int × Nat)) :=
  let rs := records files
  if rs.isEmpty then
    Except.error "No valid log entries parsed. Please check your log file format."
  else
    Except.ok (event_counts (storeTimes rs))

/-- Sample mean of a list of rationals, `sum / n` (0 on the empty list, as a
0/0 convention; the detector only runs on nonempty bucket sequences). -/
def meanQ (xs : List ℚ) : ℚ := xs.sum / xs.length

/-- Population variance (scipy `ddof = 0`): mean squared deviation from the
mean. -/
def varQ (xs : List ℚ) : ℚ :=
  (xs.map (fun x => (x - meanQ xs) ^ 2)).sum / xs.length

/-- Squared z-score column of `stats.zscore(event_counts["count"])` (source
line 125).  scipy computes `(x - mean) / std` with the population standard
deviation; the real-valued entry is encoded by its square `(x - μ)² / σ²` to
stay inside ℚ, and the NaN produced by the float division when `σ = 0` is
encoded as `none`. -/
def zscoreSq (xs : List ℚ) : List (Option ℚ) :=
  xs.map (fun x => if varQ xs = 0 then none else some ((x - meanQ xs) ^ 2 / varQ xs))

/-- Outlier flag column of the filter `abs(event_counts["zscore"]) > 2`
(source line 126).  For a real z-score, `|z| > 2 ↔ z² > 4 ↔ (x-μ)² > 4σ²`
when `σ² > 0`; NaN (the `σ = 0` case) compares False in Python. -/
def zflag (xs : List ℚ) : List Bool :=
  xs.map (fun x => if varQ xs = 0 then false else decide ((x - meanQ xs) ^ 2 > 4 * varQ xs))

/-- Bucket counts as rationals, the `count` column handed to the detector. -/
def countsQ (bs : List (Int × Nat)) : List ℚ :=
  bs.map (fun b => (b.2 : ℚ))

/-- IP keys handed to the geolocation collaborator (source line 144:
`df_logs["ip"].dropna().unique()`). -/
def geoKeys (es : List Event) : List String :=
  (es.filterMap (fun e => e.ip)).dedup

/-! Helper lemmas about the parsing layer. -/

theorem parseLine_eq_some_iff {ftype line : String} {e : Event} :
    parseLine ftype line = some e ↔
      truthyTime (extract_log_details line ftype).time = true ∧
        e = extract_log_details line ftype := by
  unfold parseLine
  by_cases h : truthyTime (extract_log_details line ftype).time = true
  · simp [h, eq_comm]
  · simp [h]

theorem parseLine_eq_none_iff {ftype line : String} :
    parseLine ftype line = none ↔
      truthyTime (extract_log_details line ftype).time = false := by
  unfold parseLine
  by_cases h : truthyTime (extract_log_details line ftype).time = true
  · simp [h]
  · simp [h]

theorem extract_time_eq (entry ftype : String) :
    (extract_log_details entry ftype).time =
      (searchTs entry.data).map Int.ofNat := rfl

theorem mem_records_iff {files : List FileInput} {e : Event} :
    e ∈ records files ↔
      ∃ fi ∈ files, ∃ line ∈ fi.lines, parseLine fi.ftype line = some e := by
  simp only [records, List.mem_flatMap, List.mem_filterMap]

theorem records_time_shape {files : List FileInput} {e : Event}
    (h : e ∈ records files) : ∃ n : Nat, e.time = some (n : Int) ∧ (n : Int) ≠ 0 := by
  rcases mem_records_iff.1 h with ⟨fi, _, line, _, hp⟩
  rcases parseLine_eq_some_iff.1 hp with ⟨htruthy, he⟩
  subst he
  rw [extract_time_eq] at htruthy ⊢
  cases hts : searchTs line.data with
  | none => rw [hts] at htruthy; simp [truthyTime] at htruthy
  | some n =>
    rw [hts] at htruthy
    simp only [Option.map_some, truthyTime, bne_iff_ne, ne_eq, decide_eq_true_eq] at htruthy
    exact ⟨n, rfl, by simpa using htruthy⟩
/-! Claim theorems: parsing and EventStore construction. -/

/-- Claim C1, counterexample: the line consisting of the time token
`[ts:0]` carries a valid time token whose captured digits are `0`, yet the
EventStore built from it is empty — the truthiness test on source line 76
drops a parsed time of 0, so the claim as stated is false. -/
theorem c1_ts_zero_line_yields_empty_store :
    searchTs "[ts:0]".data = some 0 ∧ records [⟨"TXT", ["[ts:0]"]⟩] = [] := by
  decide

/-- Claim C1, amended: for every log line whose time token captures a
nonzero value, parsing produces an Event included in the EventStore, and
that Event's time field equals the integer value of the captured digits,
regardless of which other tokens are present or malformed. -/
theorem c1_time_token_value_recorded (files : List FileInput) (fi : FileInput)
    (line : String) (t : Nat) (hfi : fi ∈ files) (hline : line ∈ fi.lines)
    (hts : searchTs line.data = some t) (hnz : t ≠ 0) :
    extract_log_details line fi.ftype ∈ records files ∧
      (extract_log_details line fi.ftype).time = some (t : Int) := by
  have htime : (extract_log_details line fi.ftype).time = some (t : Int) := by
    rw [extract_time_eq, hts]; rfl
  refine ⟨mem_records_iff.2 ⟨fi, hfi, line, hline, ?_⟩, htime⟩
  refine parseLine_eq_some_iff.2 ⟨?_, rfl⟩
  rw [htime]
  simp only [truthyTime, bne_iff_ne, ne_eq, decide_eq_true_eq]
  exact_mod_cast hnz

/-- Claim C1, witness of the amended theorem at the line `[ts:7] usr:bob`. -/
theorem c1_time_token_value_recorded_witness :
    extract_log_details "[ts:7] usr:bob" "TXT" ∈
        records [⟨"TXT", ["[ts:7] usr:bob"]⟩] ∧
      (extract_log_details "[ts:7] usr:bob" "TXT").time = some (7 : Int) :=
  c1_time_token_value_recorded [⟨"TXT", ["[ts:7] usr:bob"]⟩]
    ⟨"TXT", ["[ts:7] usr:bob"]⟩ "[ts:7] usr:bob" 7
    (by decide) (by decide) (by decide) (by decide)

/-- Claim C6: a line with no `[ts:<digits>]` token yields no Event — the
per-line parse step returns nothing, the EventStore built from such a line
is empty, and the geolocation key set (the downstream consumer of the
store's ip column) is empty as well. -/
theorem c6_no_ts_line_dropped (ftype line : String)
    (h : searchTs line.data = none) :
    parseLine ftype line = none ∧
      records [⟨ftype, [line]⟩] = [] ∧
      geoKeys (records [⟨ftype, [line]⟩]) = [] := by
  have hp : parseLine ftype line = none := by
    refine parseLine_eq_none_iff.2 ?_
    rw [extract_time_eq, h]; rfl
  have hrec : records [⟨ftype, [line]⟩] = [] := by
    simp [records, hp]
  exact ⟨hp, hrec, by rw [hrec]; rfl⟩

/-- Claim C6, witness at the line `IP:9.9.9.9` that carries only an IP
token and no time token. -/
theorem c6_no_ts_line_dropped_witness :
    parseLine "TXT" "IP:9.9.9.9" = none ∧
      records [⟨"TXT", ["IP:9.9.9.9"]⟩] = [] ∧
      geoKeys (records [⟨"TXT", ["IP:9.9.9.9"]⟩]) = [] :=
  c6_no_ts_line_dropped "TXT" "IP:9.9.9.9" (by decide)

/-- Claim C7: when no line yields an Event the pipeline stops at the guard
of source lines 82–87 with the user-visible warning, before any aggregation
or detection runs, instead of raising an internal error. -/
theorem c7_empty_store_halts (files : List FileInput)
    (h : records files = []) :
    runPipeline files =
      Except.error "No valid log entries parsed. Please check your log file format." := by
  unfold runPipeline
  simp [h]

/-- Claim C7, witness: a single file whose only line matches no time token
halts the pipeline with the warning. -/
theorem c7_empty_store_halts_witness :
    runPipeline [⟨"TXT", ["hello world"]⟩] =
      Except.error "No valid log entries parsed. Please check your log file format." :=
  c7_empty_store_halts [⟨"TXT", ["hello world"]⟩] (by decide)

/-- Claim C9: the line parser is total and pure — it is a function defined
on every input string and format tag (totality and determinism are
intrinsic: equal inputs give the one defined output), each of the six
fields is absent exactly when its pattern has no match in the line, and the
format tag is carried through unchanged. -/
theorem c9_extract_total_pure (entry ftype entry2 ftype2 : String)
    (h1 : entry2 = entry) (h2 : ftype2 = ftype) :
    ((extract_log_details entry ftype).time = none ↔ searchTs entry.data = none) ∧
    ((extract_log_details entry ftype).event = none ↔ searchEvnt entry.data = none) ∧
    ((extract_log_details entry ftype).user = none ↔ searchUsr entry.data = none) ∧
    ((extract_log_details entry ftype).ip = none ↔ searchIp entry.data = none) ∧
    ((extract_log_details entry ftype).path = none ↔ searchPath entry.data = none) ∧
    ((extract_log_details entry ftype).pid = none ↔ searchPid entry.data = none) ∧
    (extract_log_details entry ftype).format = ftype ∧
    extract_log_details entry2 ftype2 = extract_log_details entry ftype := by
  subst h1; subst h2
  refine ⟨?_, ?_, ?_, ?_, ?_, ?_, rfl, rfl⟩
  · cases hs : searchTs entry2.data <;> simp [extract_log_details, hs]
  · cases hs : searchEvnt entry2.data <;> simp [extract_log_details, hs]
  · cases hs : searchUsr entry2.data <;> simp [extract_log_details, hs]
  · cases hs : searchIp entry2.data <;> simp [extract_log_details, hs]
  · cases hs : searchPath entry2.data <;> simp [extract_log_details, hs]
  · cases hs : searchPid entry2.data <;> simp [extract_log_details, hs]

/-- Claim C9, witness at a line mixing a valid time token with malformed
remains of other tokens. -/
theorem c9_extract_total_pure_witness :
    (((extract_log_details "[ts:9] IP:" "VLOG").time = none ↔
        searchTs "[ts:9] IP:".data = none) ∧
      ((extract_log_details "[ts:9] IP:" "VLOG").event = none ↔
        searchEvnt "[ts:9] IP:".data = none) ∧
      ((extract_log_details "[ts:9] IP:" "VLOG").user = none ↔
        searchUsr "[ts:9] IP:".data = none) ∧
      ((extract_log_details "[ts:9] IP:" "VLOG").ip = none ↔
        searchIp "[ts:9] IP:".data = none) ∧
      ((extract_log_details "[ts:9] IP:" "VLOG").path = none ↔
        searchPath "[ts:9] IP:".data = none) ∧
      ((extract_log_details "[ts:9] IP:" "VLOG").pid = none ↔
        searchPid "[ts:9] IP:".data = none) ∧
      (extract_log_details "[ts:9] IP:" "VLOG").format = "VLOG" ∧
      extract_log_details "[ts:9] IP:" "VLOG" =
        extract_log_details "[ts:9] IP:" "VLOG") :=
  c9_extract_total_pure "[ts:9] IP:" "VLOG" "[ts:9] IP:" "VLOG" rfl rfl

/-- Claim C10: every Event in the EventStore has a strictly positive time
(the truthiness test accepts exactly the nonzero parsed times, and captured
digit runs are non-negative), and a line whose time token captures 0 is
dropped even though the token matched. -/
theorem c10_store_times_positive :
    (∀ (files : List FileInput) (e : Event), e ∈ records files →
        ∃ t : Int, e.time = some t ∧ 0 < t) ∧
    (∀ ftype line : String, searchTs line.data = some 0 →
        parseLine ftype line = none) := by
  constructor
  · intro files e he
    rcases records_time_shape he with ⟨n, hn, hne⟩
    exact ⟨n, hn, lt_of_le_of_ne (Int.natCast_nonneg n) (Ne.symm hne)⟩
  · intro ftype line h
    refine parseLine_eq_none_iff.2 ?_
    rw [extract_time_eq, h]; rfl

/-- Claim C10, witness: the Event parsed from `[ts:4]` is in the store and
has positive time, while the line `[ts:0]` parses to no Event. -/
theorem c10_store_times_positive_witness :
    (∃ t : Int, (extract_log_details "[ts:4]" "TXT").time = some t ∧ 0 < t) ∧
      parseLine "TXT" "[ts:0]" = none :=
  ⟨c10_store_times_positive.1 [⟨"TXT", ["[ts:4]"]⟩]
      (extract_log_details "[ts:4]" "TXT") (by decide),
    c10_store_times_positive.2 "TXT" "[ts:0]" (by decide)⟩

/-- Claim C8, counterexample: the store built from the line `[ts:5] pid0`
contains an Event whose pid is present and equal to 0, which is not
strictly positive — `pid(\d+)` happily captures the digits `0` and no
positivity check exists in the source. -/
theorem c8_pid_zero_in_store :
    ¬ (∀ e ∈ records [⟨"TXT", ["[ts:5] pid0"]⟩],
        ∀ p : Int, e.pid = some p → 0 < p) := by
  intro h
  have h0 := h (extract_log_details "[ts:5] pid0" "TXT") (by decide) 0 (by decide)
  exact absurd h0 (by decide)

/-- Claim C8, amended: every Event in the EventStore has a pid that is
either absent or a non-negative integer (0 included, since the pattern
`pid(\d+)` can capture a digit run of value 0). -/
theorem c8_store_pid_nonneg (files : List FileInput) (e : Event) (p : Int)
    (he : e ∈ records files) (hp : e.pid = some p) : 0 ≤ p := by
  rcases mem_records_iff.1 he with ⟨fi, _, line, _, hpl⟩
  rcases parseLine_eq_some_iff.1 hpl with ⟨_, heq⟩
  subst heq
  have hdef : (extract_log_details line fi.ftype).pid =
      (searchPid line.data).map Int.ofNat := rfl
  rw [hdef] at hp
  rcases Option.map_eq_some'.1 hp with ⟨n, _, hpn⟩
  rw [← hpn]
  exact Int.natCast_nonneg n

/-- Claim C8, witness: the Event parsed from `[ts:5] pid3` is in the store
with pid 3, and the amended theorem gives 0 ≤ 3. -/
theorem c8_store_pid_nonneg_witness :
    (extract_log_details "[ts:5] pid3" "TXT").pid = some 3 ∧ (0 : Int) ≤ 3 :=
  ⟨by decide,
    c8_store_pid_nonneg [⟨"TXT", ["[ts:5] pid3"]⟩]
      (extract_log_details "[ts:5] pid3" "TXT") 3 (by decide) (by decide)⟩

/-! Helper lemmas about the aggregation layer. -/

theorem minT_le_of_mem {ts : List Int} {x : Int} (h : x ∈ ts) : minT ts ≤ x := by
  induction ts with
  | nil => cases h
  | cons t ts ih =>
    cases ts with
    | nil => simp at h; simp [minT, h]
    | cons u ts =>
      rcases List.mem_cons.1 h with h | h
      · simp [minT, h]
      · calc minT (t :: u :: ts) ≤ minT (u :: ts) := by simp [minT]
          _ ≤ x := ih h

theorem le_maxT_of_mem {ts : List Int} {x : Int} (h : x ∈ ts) : x ≤ maxT ts := by
  induction ts with
  | nil => cases h
  | cons t ts ih =>
    cases ts with
    | nil => simp at h; simp [maxT, h]
    | cons u ts =>
      rcases List.mem_cons.1 h with h | h
      · simp [maxT, h]
      · calc x ≤ maxT (u :: ts) := ih h
          _ ≤ maxT (t :: u :: ts) := by simp [maxT]

theorem minT_le_maxT {ts : List Int} (h : ts ≠ []) : minT ts ≤ maxT ts := by
  cases ts with
  | nil => exact absurd rfl h
  | cons t ts =>
    exact le_trans (minT_le_of_mem (List.mem_cons_self t ts))
      (le_maxT_of_mem (List.mem_cons_self t ts))

theorem win_emod (t : Int) : win t % 10 = 0 := by
  unfold win; omega

theorem win_mono {t u : Int} (h : t ≤ u) : win t ≤ win u := by
  unfold win; omega

theorem windows_eq {ts : List Int} (h : ts ≠ []) :
    windows ts =
      (List.range ((maxT ts / 10 - minT ts / 10).toNat + 1)).map
        (fun (i : Nat) => win (minT ts) + 10 * (i : Int)) := by
  cases ts with
  | nil => exact absurd rfl h
  | cons t ts => rfl

theorem mem_windows {ts : List Int} (hne : ts ≠ []) {w : Int} :
    w ∈ windows ts ↔ w % 10 = 0 ∧ win (minT ts) ≤ w ∧ w ≤ win (maxT ts) := by
  have hmm : minT ts / 10 ≤ maxT ts / 10 := by
    have := minT_le_maxT hne
    omega
  rw [windows_eq hne]
  simp only [List.mem_map, List.mem_range]
  constructor
  · rintro ⟨i, hi, rfl⟩
    unfold win
    omega
  · rintro ⟨hmod, hlo, hhi⟩
    unfold win at hlo hhi ⊢
    refine ⟨(w / 10 - minT ts / 10).toNat, ?_, ?_⟩
    · omega
    · omega

theorem windows_nodup (ts : List Int) : (windows ts).Nodup := by
  cases hts : ts with
  | nil => simp [windows]
  | cons t ts0 =>
    rw [← hts, windows_eq (by rw [hts]; simp)]
    refine List.Nodup.map ?_ (List.nodup_range _)
    intro i j hij
    simp only at hij
    omega

theorem event_counts_length {ts : List Int} (hne : ts ≠ []) :
    (event_counts ts).length = (maxT ts / 10 - minT ts / 10).toNat + 1 := by
  simp [event_counts, windows_eq hne]

theorem event_counts_get {ts : List Int} (hne : ts ≠ []) (i : Nat)
    (h : i < (event_counts ts).length) :
    (event_counts ts).get ⟨i, h⟩ =
      (win (minT ts) + 10 * (i : Int),
        (ts.filter (fun t => win t == win (minT ts) + 10 * (i : Int))).length) := by
  simp [event_counts, windows_eq hne, List.get_eq_getElem, List.getElem_map,
    List.getElem_range]

theorem sum_map_add_aux {α : Type} (W : List α) (f g : α → Nat) :
    (W.map (fun w => f w + g w)).sum = (W.map f).sum + (W.map g).sum := by
  induction W with
  | nil => rfl
  | cons w W ih => simp [ih]; omega

theorem sum_indicator_not_mem {W : List Int} {x : Int} (hx : x ∉ W) :
    (W.map (fun w => if x == w then 1 else 0)).sum = 0 := by
  induction W with
  | nil => rfl
  | cons w W ih =>
    have hxw : ¬(x == w) = true := by
      simp only [beq_iff_eq]
      intro hc
      exact hx (hc ▸ List.mem_cons_self w W)
    simp only [List.map_cons, List.sum_cons, if_neg hxw, Nat.zero_add]
    exact ih (fun hc => hx (List.mem_cons_of_mem w hc))

theorem sum_indicator_mem {W : List Int} {x : Int} (hnd : W.Nodup) (hx : x ∈ W) :
    (W.map (fun w => if x == w then 1 else 0)).sum = 1 := by
  induction W with
  | nil => cases hx
  | cons w W ih =>
    rcases List.mem_cons.1 hx with h | h
    · subst h
      have hnin : x ∉ W := (List.nodup_cons.1 hnd).1
      simp only [List.map_cons, List.sum_cons, if_pos (beq_self_eq_true x)]
      rw [sum_indicator_not_mem hnin]
    · have hxw : ¬(x == w) = true := by
        simp only [beq_iff_eq]
        intro hc
        subst hc
        exact (List.nodup_cons.1 hnd).1 h
      simp only [List.map_cons, List.sum_cons, if_neg hxw, Nat.zero_add]
      exact ih (List.nodup_cons.1 hnd).2 h

theorem sum_filter_lengths (W ts : List Int) (hnd : W.Nodup)
    (hcov : ∀ t ∈ ts, win t ∈ W) :
    ((W.map (fun w => (ts.filter (fun t => win t == w)).length)).sum) = ts.length := by
  induction ts with
  | nil => simp
  | cons t ts ih =>
    have hstep : ∀ w : Int,
        ((t :: ts).filter (fun t => win t == w)).length =
          (if win t == w then 1 else 0) + (ts.filter (fun t => win t == w)).length := by
      intro w
      by_cases h : (win t == w) = true
      · simp [List.filter_cons, h]
        omega
      · simp [List.filter_cons, h]
    calc (W.map (fun w => ((t :: ts).filter (fun t => win t == w)).length)).sum
        = (W.map (fun w =>
            (if win t == w then 1 else 0) +
              (ts.filter (fun t => win t == w)).length)).sum := by
          congr 1
          exact List.map_congr_left (fun w _ => hstep w)
      _ = (W.map (fun w => if win t == w then 1 else 0)).sum +
            (W.map (fun w => (ts.filter (fun t => win t == w)).length)).sum :=
          sum_map_add_aux W _ _
      _ = 1 + ts.length := by
          rw [sum_indicator_mem hnd (hcov t (List.mem_cons_self t ts)),
            ih (fun u hu => hcov u (List.mem_cons_of_mem t hu))]
      _ = (t :: ts).length := by simp [List.length_cons]; omega

theorem win_mem_windows {ts : List Int} (hne : ts ≠ []) {t : Int} (ht : t ∈ ts) :
    win t ∈ windows ts := by
  refine (mem_windows hne).2 ⟨win_emod t, ?_, ?_⟩
  · exact win_mono (minT_le_of_mem ht)
  · exact win_mono (le_maxT_of_mem ht)

theorem storeTimes_length_of_all_some {es : List Event}
    (h : ∀ e ∈ es, e.time.isSome = true) :
    (storeTimes es).length = es.length := by
  induction es with
  | nil => rfl
  | cons e es ih =>
    have he : e.time.isSome = true := h e (List.mem_cons_self e es)
    rcases Option.isSome_iff_exists.1 he with ⟨t, ht⟩
    simp only [storeTimes, List.filterMap_cons, ht, List.length_cons]
    have := ih (fun u hu => h u (List.mem_cons_of_mem e hu))
    simp only [storeTimes] at this
    rw [this]

theorem records_time_isSome {files : List FileInput} {e : Event}
    (h : e ∈ records files) : e.time.isSome = true := by
  rcases records_time_shape h with ⟨n, hn, _⟩
  simp [hn]

theorem storeTimes_records_length (files : List FileInput) :
    (storeTimes (records files)).length = (records files).length :=
  storeTimes_length_of_all_some (fun _ he => records_time_isSome he)

theorem storeTimes_ne_nil {files : List FileInput} (h : records files ≠ []) :
    storeTimes (records files) ≠ [] := by
  intro hc
  have h1 := storeTimes_records_length files
  rw [hc] at h1
  exact h (List.length_eq_zero.1 h1.symm)

/-! Claim theorems: aggregation. -/

/-- Claim C4: for a nonempty EventStore the bucket sequence is gapless and
ascending — consecutive windowStart values differ by exactly 10 seconds,
every bucket's windowStart lies between the window of the minimum Event
time and the window of the maximum Event time, and every 10-aligned window
in that inclusive range appears with its exact count of matching events,
count 0 when no event falls in it. -/
theorem c4_buckets_gapless (files : List FileInput) (ts : List Int)
    (hts : ts = storeTimes (records files)) (hne : records files ≠ []) :
    (∀ (i : Nat) (hi : i + 1 < (event_counts ts).length),
        ((event_counts ts).get ⟨i + 1, hi⟩).1 =
          ((event_counts ts).get ⟨i, Nat.lt_of_succ_lt hi⟩).1 + 10) ∧
    (∀ p ∈ event_counts ts, win (minT ts) ≤ p.1 ∧ p.1 ≤ win (maxT ts)) ∧
    (∀ w : Int, w % 10 = 0 → win (minT ts) ≤ w → w ≤ win (maxT ts) →
        (w, (ts.filter (fun t => win t == w)).length) ∈ event_counts ts) := by
  have hne2 : ts ≠ [] := by
    rw [hts]
    exact storeTimes_ne_nil hne
  refine ⟨?_, ?_, ?_⟩
  · intro i hi
    rw [event_counts_get hne2 (i + 1) hi,
      event_counts_get hne2 i (Nat.lt_of_succ_lt hi)]
    show win (minT ts) + 10 * ((i + 1 : Nat) : Int) =
      win (minT ts) + 10 * (i : Int) + 10
    push_cast
    ring
  · intro p hp
    rcases List.mem_map.1 hp with ⟨w, hw, hfw⟩
    rcases (mem_windows hne2).1 hw with ⟨_, hlo, hhi⟩
    rw [← hfw]
    exact ⟨hlo, hhi⟩
  · intro w hmod hlo hhi
    exact List.mem_map.2 ⟨w, (mem_windows hne2).2 ⟨hmod, hlo, hhi⟩, rfl⟩

/-- Claim C4, witness on the store of `[ts:3]` and `[ts:27]`: the second
bucket starts 10 seconds after the first, and the empty middle window 10
appears with count 0. -/
theorem c4_buckets_gapless_witness :
    ((event_counts [3, 27]).get ⟨1, by decide⟩).1 =
        ((event_counts [3, 27]).get ⟨0, by decide⟩).1 + 10 ∧
      ((10 : Int), 0) ∈ event_counts [3, 27] := by
  have h := c4_buckets_gapless [⟨"TXT", ["[ts:3]", "[ts:27]"]⟩] [3, 27]
    (by decide) (by decide)
  refine ⟨h.1 0 (by decide), ?_⟩
  have h2 := h.2.2 10 (by decide) (by decide) (by decide)
  have h3 : (([3, 27] : List Int).filter (fun t => win t == 10)).length = 0 := by
    decide
  rw [h3] at h2
  exact h2

/-- Claim C5: the bucket counts produced by the aggregator sum exactly to
the number of Events in the EventStore — each Event lands in exactly one
bucket. -/
theorem c5_counts_sum (files : List FileInput) (hne : records files ≠ []) :
    ((event_counts (storeTimes (records files))).map (fun b => b.2)).sum =
      (records files).length := by
  have hne2 : storeTimes (records files) ≠ [] := storeTimes_ne_nil hne
  have h1 : ((event_counts (storeTimes (records files))).map (fun b => b.2)).sum =
      (storeTimes (records files)).length := by
    unfold event_counts
    rw [List.map_map]
    exact sum_filter_lengths (windows (storeTimes (records files)))
      (storeTimes (records files))
      (windows_nodup (storeTimes (records files)))
      (fun t ht => win_mem_windows hne2 ht)
  rw [h1]
  exact storeTimes_records_length files

/-- Claim C5, witness on the store of `[ts:3]` and `[ts:27]`. -/
theorem c5_counts_sum_witness :
    ((event_counts (storeTimes (records [⟨"TXT", ["[ts:3]", "[ts:27]"]⟩]))).map
        (fun b => b.2)).sum =
      (records [⟨"TXT", ["[ts:3]", "[ts:27]"]⟩]).length :=
  c5_counts_sum [⟨"TXT", ["[ts:3]", "[ts:27]"]⟩] (by decide)

/-! Helper lemmas and claim theorems: the z-score detector. -/

theorem sum_const_of_all_eq {xs : List ℚ} {c : ℚ} (h : ∀ x ∈ xs, x = c) :
    xs.sum = xs.length * c := by
  induction xs with
  | nil => simp
  | cons a xs ih =>
    have ha : a = c := h a (List.mem_cons_self a xs)
    have hrest := ih (fun x hx => h x (List.mem_cons_of_mem a hx))
    simp only [List.sum_cons, List.length_cons, ha, hrest]
    push_cast
    ring

theorem meanQ_const {xs : List ℚ} {c : ℚ} (hne : xs ≠ []) (h : ∀ x ∈ xs, x = c) :
    meanQ xs = c := by
  have hlen : (xs.length : ℚ) ≠ 0 := by
    simpa using List.length_pos.2 hne |>.ne'
  unfold meanQ
  rw [sum_const_of_all_eq h]
  field_simp

theorem varQ_const {xs : List ℚ} {c : ℚ} (hne : xs ≠ []) (h : ∀ x ∈ xs, x = c) :
    varQ xs = 0 := by
  unfold varQ
  have hz : (xs.map (fun x => (x - meanQ xs) ^ 2)).sum = 0 := by
    apply List.sum_eq_zero
    intro y hy
    rcases List.mem_map.1 hy with ⟨x, hx, hxy⟩
    rw [← hxy, h x hx, meanQ_const hne h]
    ring
  rw [hz]
  simp

/-- Claim C2: when the bucket-count sequence has nonzero standard deviation
σ (characterized as the non-negative square root of the ddof-0 variance the
source's scipy call uses), the z-score entry of bucket i is exactly
`(c_i - μ) / σ` with μ the sample mean over the full sequence (the squared
encoding makes this `((c_i - μ) / σ)^2` for the ℚ-valued development), and
bucket i is flagged if and only if `|(c_i - μ) / σ| > 2`. -/
theorem c2_zscore_flag (xs : List ℚ) (σ : ℚ) (i : Nat) (hi : i < xs.length)
    (hσ0 : 0 ≤ σ) (hσsq : σ ^ 2 = varQ xs) (hσne : σ ≠ 0) :
    (zscoreSq xs).get ⟨i, by simpa [zscoreSq] using hi⟩ =
        some (((xs.get ⟨i, hi⟩ - meanQ xs) / σ) ^ 2) ∧
      ((zflag xs).get ⟨i, by simpa [zflag] using hi⟩ = true ↔
        |(xs.get ⟨i, hi⟩ - meanQ xs) / σ| > 2) := by
  have hvar : varQ xs ≠ 0 := by
    rw [← hσsq]
    exact pow_ne_zero 2 hσne
  have hvarpos : 0 < varQ xs := by
    rw [← hσsq]
    exact pow_pos (lt_of_le_of_ne hσ0 (Ne.symm hσne)) 2
  set x := xs.get ⟨i, hi⟩ with hx
  constructor
  · have hget : (zscoreSq xs).get ⟨i, by simpa [zscoreSq] using hi⟩ =
        (if varQ xs = 0 then none else some ((x - meanQ xs) ^ 2 / varQ xs)) := by
      simp [zscoreSq, List.get_eq_getElem, List.getElem_map, hx]
    rw [hget, if_neg hvar, div_pow, hσsq]
  · have hget : (zflag xs).get ⟨i, by simpa [zflag] using hi⟩ =
        (if varQ xs = 0 then false
          else decide ((x - meanQ xs) ^ 2 > 4 * varQ xs)) := by
      simp [zflag, List.get_eq_getElem, List.getElem_map, hx]
    rw [hget, if_neg hvar]
    rw [decide_eq_true_eq]
    have habs : |(x - meanQ xs) / σ| ^ 2 = (x - meanQ xs) ^ 2 / varQ xs := by
      rw [sq_abs, div_pow, hσsq]
    constructor
    · intro hgt
      have h4 : (4 : ℚ) < (x - meanQ xs) ^ 2 / varQ xs :=
        (lt_div_iff₀ hvarpos).2 (by linarith)
      have h4' : (2 : ℚ) ^ 2 < |(x - meanQ xs) / σ| ^ 2 := by
        rw [habs]
        norm_num
        exact h4
      have := lt_of_pow_lt_pow_left₀ 2 (abs_nonneg _) h4'
      exact this
    · intro hgt
      have h4' : (2 : ℚ) ^ 2 < |(x - meanQ xs) / σ| ^ 2 := by
        have h2 : (0 : ℚ) ≤ 2 := by norm_num
        exact pow_lt_pow_left₀ hgt h2 (by norm_num)
      rw [habs] at h4'
      have h4 : (4 : ℚ) < (x - meanQ xs) ^ 2 / varQ xs := by
        norm_num at h4'
        exact h4'
      have := (lt_div_iff₀ hvarpos).1 h4
      linarith

/-- Claim C2, witness at the counts `[0, 2]` with σ = 1 and i = 0: the
squared z-score is 1 and the bucket is not flagged since `|-1| ≤ 2`. -/
theorem c2_zscore_flag_witness :
    ((zscoreSq [0, 2]).get ⟨0, by norm_num [zscoreSq]⟩ =
        some (((([0, 2] : List ℚ).get ⟨0, by norm_num⟩ - meanQ [0, 2]) / 1) ^ 2) ∧
      ((zflag [0, 2]).get ⟨0, by norm_num [zflag]⟩ = true ↔
        |(([0, 2] : List ℚ).get ⟨0, by norm_num⟩ - meanQ [0, 2]) / 1| > 2)) :=
  c2_zscore_flag [0, 2] 1 0 (by norm_num) (by norm_num)
    (by norm_num [varQ, meanQ]) (by norm_num)

/-- Claim C3, counterexample: on the constant count sequence `[5, 5, 5]`
the z-score column is not zero anywhere — scipy's float division 0/0
produces NaN in every entry (modelled as `none`); the claimed value 0
appears nowhere. -/
theorem c3_constant_counts_zscore_nan :
    zscoreSq [5, 5, 5] = [none, none, none] ∧
      some (0 : ℚ) ∉ zscoreSq [5, 5, 5] := by
  have h : zscoreSq [5, 5, 5] = [none, none, none] := by
    norm_num [zscoreSq, varQ, meanQ]
  refine ⟨h, ?_⟩
  rw [h]
  simp

/-- Claim C3, amended: on every nonempty all-equal count sequence the
variance is 0, every z-score entry is the NaN marker produced by the 0/0
float division (not the number 0), no bucket is flagged, and the
computation is total — no division-by-zero error propagates. -/
theorem c3_sigma_zero_policy (xs : List ℚ) (hne : xs ≠ [])
    (hconst : ∀ x ∈ xs, ∀ y ∈ xs, x = y) :
    varQ xs = 0 ∧ zscoreSq xs = xs.map (fun _ => none) ∧
      zflag xs = xs.map (fun _ => false) := by
  have hvar : varQ xs = 0 := by
    cases hxs : xs with
    | nil => exact absurd hxs hne
    | cons a l =>
      rw [← hxs]
      exact varQ_const hne (fun x hx => hconst x hx a (by rw [hxs]; exact List.mem_cons_self a l))
  refine ⟨hvar, ?_, ?_⟩
  · unfold zscoreSq
    exact List.map_congr_left (fun x _ => by rw [if_pos hvar])
  · unfold zflag
    exact List.map_congr_left (fun x _ => by rw [if_pos hvar])

/-- Claim C3, witness at the constant count sequence `[5, 5, 5]`. -/
theorem c3_sigma_zero_policy_witness :
    varQ [5, 5, 5] = 0 ∧
      zscoreSq [5, 5, 5] = ([5, 5, 5] : List ℚ).map (fun _ => none) ∧
      zflag [5, 5, 5] = ([5, 5, 5] : List ℚ).map (fun _ => false) :=
  c3_sigma_zero_policy [5, 5, 5] (by simp)
    (by intro x hx y hy; simp at hx hy; rw [hx, hy])

end LogAnalysis
